import Mathlib

/-!
Verification development for the CobranSaaS HTTP client core
(`src/cobransaas_mcp/api/client.py`): a shallow embedding of the
rate limiter, OAuth2 token handling, the retrying request executor and
the two pagination modes, with theorems checking the documented behaviour.

Times are modelled as rationals (`ℚ`), seconds as in the source.
Stateful methods become pure functions threading their state explicitly;
the monotonic clock is an explicit `now` argument, and `asyncio.sleep w`
advances it by `w`.
-/

/-! ## Query-parameter dictionaries

Python `dict[str, Any]` as used for query params: insertion-ordered
association list, key update in place (Python dict assignment semantics).
Values are the strings and ints the client stores. -/

inductive PValue where
  | s (v : String)
  | i (v : Int)
deriving DecidableEq

abbrev Params := List (String × PValue)

/-- `d[k] = v` on a Python dict: overwrite in place, or append if new. -/
def setParam : Params → String → PValue → Params
  | [], k, v => [(k, v)]
  | (k0, v0) :: rest, k, v =>
    if k0 = k then (k, v) :: rest else (k0, v0) :: setParam rest k v

/-- `d.get(k)` on a Python dict. -/
def getParam : Params → String → Option PValue
  | [], _ => none
  | (k0, v0) :: rest, k => if k0 = k then some v0 else getParam rest k

/-! ## RateLimiter (client.py lines 13-46)

State: `max_requests`, `window_seconds`, and the deque of monotonic
timestamps.  `acquire` runs under the limiter's lock, so it is embedded as
a sequential state transformer `state → now → state × wait`, where `wait`
is the total time spent in `asyncio.sleep`. -/

structure RateLimiter where
  max_requests : Nat
  window_seconds : ℚ
  timestamps : List ℚ
deriving DecidableEq

/-- The `while self._timestamps and now - self._timestamps[0] >= self.window_seconds:
popleft()` loop: drop the expired prefix. -/
def purgeExpired (w now : ℚ) : List ℚ → List ℚ
  | [] => []
  | t :: ts => if w ≤ now - t then purgeExpired w now ts else t :: ts

/-- `RateLimiter.acquire` (lines 26-46).  Returns the new state and the time
slept.  After sleeping `wait`, `time.monotonic()` reads `now + wait`, which is
the value appended.  When `max_requests = 0` the source would raise
`IndexError` at `self._timestamps[0]` on an empty deque; that dead branch
(reachable only with `max_requests = 0`) records `now` so the function stays
total. -/
def RateLimiter.acquire (rl : RateLimiter) (now : ℚ) : RateLimiter × ℚ :=
  let ts := purgeExpired rl.window_seconds now rl.timestamps
  if rl.max_requests ≤ ts.length then
    match ts with
    | [] => ({ rl with timestamps := [now] }, 0)
    | oldest :: rest =>
      let wait := rl.window_seconds - (now - oldest)
      if 0 < wait then
        ({ rl with timestamps := rest ++ [now + wait] }, wait)
      else
        ({ rl with timestamps := (oldest :: rest) ++ [now] }, 0)
  else
    ({ rl with timestamps := ts ++ [now] }, 0)

/-- Fold a sequence of `acquire` calls (at the given monotonic instants)
through the limiter, collecting each call's wait time. -/
def runAcquires (rl : RateLimiter) : List ℚ → RateLimiter × List ℚ
  | [] => (rl, [])
  | t :: ts =>
    let step := rl.acquire t
    let rest := runAcquires step.1 ts
    (rest.1, step.2 :: rest.2)

/-! ## OAuth2Token (client.py lines 49-65) -/

structure OAuth2Token where
  access_token : String
  token_type : String
  expires_at : ℚ
deriving DecidableEq

/-- `OAuth2Token.__init__`: `expires_at = time.time() + expires_in - 60`
(60s buffer), with `time.time()` passed as `now`. -/
def mkOAuth2Token (access_token : String) (expires_in : ℚ)
    (token_type : String) (now : ℚ) : OAuth2Token :=
  { access_token := access_token
    token_type := token_type
    expires_at := now + expires_in - 60 }

/-- `is_expired`: `time.time() >= self.expires_at`. -/
def OAuth2Token.is_expired (tok : OAuth2Token) (now : ℚ) : Bool :=
  decide (tok.expires_at ≤ now)

/-- `authorization_header`: `f"{token_type} {access_token}"`. -/
def OAuth2Token.authorization_header (tok : OAuth2Token) : String :=
  tok.token_type ++ " " ++ tok.access_token

/-! ## Token fetch and cache (client.py lines 93-117) -/

/-- The fields of `Settings` the client core reads. -/
structure Settings where
  oauth2_url : String
  client_id : String
  client_secret : String
  max_retries : Nat

/-- JSON body of the token endpoint response; optional fields model
`data.get(..., default)`. -/
structure TokenResponse where
  access_token : String
  expires_in : Option ℚ
  token_type : Option String

/-- Shape of an outgoing HTTP request to the token endpoint. -/
structure TokenRequest where
  method : String
  url : String
  basic_auth : String × String
deriving DecidableEq

/-- The request `_fetch_token` issues (lines 105-108): POST to
`f"{oauth2_url}?grant_type=client_credentials"` with
`auth=(client_id, client_secret)`. -/
def fetchTokenRequest (s : Settings) : TokenRequest :=
  { method := "POST"
    url := s.oauth2_url ++ "?grant_type=client_credentials"
    basic_auth := (s.client_id, s.client_secret) }

/-- `_fetch_token`'s token construction (lines 113-117): defaults
`expires_in = 3600`, `token_type = "Bearer"`. -/
def fetchToken (resp : TokenResponse) (now : ℚ) : OAuth2Token :=
  mkOAuth2Token resp.access_token (resp.expires_in.getD 3600)
    (resp.token_type.getD "Bearer") now

/-- `_get_token` (lines 93-98) as a state transformer on the cached token.
Returns (token returned, new cache, number of fetches performed); `resp`
is the body the token endpoint would answer with if queried. -/
def getTokenStep (cached : Option OAuth2Token) (resp : TokenResponse)
    (now : ℚ) : OAuth2Token × Option OAuth2Token × Nat :=
  match cached with
  | none =>
    let t := fetchToken resp now
    (t, some t, 1)
  | some tok =>
    if tok.is_expired now then
      let t := fetchToken resp now
      (t, some t, 1)
    else
      (tok, some tok, 0)

/-! ## Request executor `_request` (client.py lines 119-164)

One logical call is run against a trace `attempt : Nat → AttemptResult`
giving the outcome of each physical attempt; the attempt index coincides
with the `retry_count` the source threads through its recursion.  The
embedding records the classified result, the number of physical attempts,
the list of backoff sleeps (in seconds), and how many times the cached
token was invalidated (`self._token = None`). -/

inductive AttemptResult where
  /-- The transport returned a response with this HTTP status code. -/
  | status (code : Nat)
  /-- The transport raised `httpx.RequestError` (connection error, timeout). -/
  | transportError
deriving DecidableEq

inductive ReqOutcome where
  | success (code : Nat)
  | httpStatusError (code : Nat)
  | transientNetworkError
deriving DecidableEq

structure RunStats where
  outcome : ReqOutcome
  attempts : Nat
  sleeps : List Nat
  invalidations : Nat
deriving DecidableEq

/-- `_request` (lines 137-164): a 401 with `retry_count < 1` invalidates the
token and recurses; `raise_for_status` surfaces any status ≥ 400; a
transport error with `retry_count < max_retries` sleeps `2 ** retry_count`
and recurses, otherwise is surfaced. -/
def runRequest (attempt : Nat → AttemptResult) (max_retries : Nat)
    (retry_count : Nat) : RunStats :=
  match attempt retry_count with
  | .status code =>
    if h401 : code = 401 ∧ retry_count < 1 then
      let r := runRequest attempt max_retries (retry_count + 1)
      { r with attempts := r.attempts + 1, invalidations := r.invalidations + 1 }
    else if 400 ≤ code then
      { outcome := .httpStatusError code, attempts := 1, sleeps := [], invalidations := 0 }
    else
      { outcome := .success code, attempts := 1, sleeps := [], invalidations := 0 }
  | .transportError =>
    if hlt : retry_count < max_retries then
      let r := runRequest attempt max_retries (retry_count + 1)
      { r with attempts := r.attempts + 1, sleeps := 2 ^ retry_count :: r.sleeps }
    else
      { outcome := .transientNetworkError, attempts := 1, sleeps := [], invalidations := 0 }
termination_by max_retries + 1 - retry_count
decreasing_by
  · omega
  · omega

/-! ## Pagination (client.py lines 194-264) -/

/-- A JSON response body: `isinstance(data, list)` distinguishes
list-shaped bodies (extended item by item) from single objects
(appended whole). -/
inductive JsonBody (α : Type) where
  | list (items : List α)
  | obj (item : α)
deriving DecidableEq

/-- Items a body contributes to the accumulated result:
`all_results.extend(data)` for lists, `all_results.append(data)` otherwise. -/
def bodyItems {α : Type} : JsonBody α → List α
  | .list l => l
  | .obj x => [x]

/-- One server response to a paginated GET: the body plus the three
pagination headers (`none` = header absent). -/
structure PageResponse (α : Type) where
  body : JsonBody α
  has_next_header : Option String
  continuable_header : Option String
  current_size_header : Option String
deriving DecidableEq

/-- `str.lower()` on ASCII header values, written as a character map so
that it evaluates by kernel reduction. -/
def strLower (s : String) : String := String.mk (s.data.map Char.toLower)

/-- `response.headers.get("x-meta-has-next", "false").lower() == "true"`. -/
def parseHasNext (h : Option String) : Bool :=
  strLower (h.getD "false") == "true"

/-- Python truthiness of an optional string (`None` and `""` are falsy),
as tested by `if not continuable` and `if continuable`. -/
def pyTruthy : Option String → Bool
  | none => false
  | some s => !(s == "")

/-- The loop in `get_paginated` continues past a response iff
`has_next and continuable` (line 222 negated). -/
def continues {α : Type} (r : PageResponse α) : Bool :=
  parseHasNext r.has_next_header && pyTruthy r.continuable_header

structure PaginatedRun (α : Type) where
  results : List α
  final_params : Params
  requests : Nat
deriving DecidableEq

/-- The `while page_count < max_pages` loop of `get_paginated`
(lines 209-227).  `fuel = max_pages - page_count`; `req` counts requests
issued so far (the server is addressed by request index). -/
def getPaginatedGo {α : Type} (srv : Nat → PageResponse α) :
    Nat → Nat → Params → List α → PaginatedRun α
  | 0, req, params, acc => { results := acc, final_params := params, requests := req }
  | fuel + 1, req, params, acc =>
    let resp := srv req
    let acc2 := acc ++ bodyItems resp.body
    if !parseHasNext resp.has_next_header || !pyTruthy resp.continuable_header then
      { results := acc2, final_params := params, requests := req + 1 }
    else
      getPaginatedGo srv fuel (req + 1)
        (setParam params "continuable" (.s (resp.continuable_header.getD ""))) acc2

/-- `get_paginated` (lines 194-228): set `params["mode"] = mode`, then loop.
The caller's dict is mutated in place in the source; here the final dict
contents are returned in `final_params`. -/
def get_paginated {α : Type} (srv : Nat → PageResponse α) (params : Params)
    (mode : String) (max_pages : Nat) : PaginatedRun α :=
  getPaginatedGo srv max_pages 0 (setParam params "mode" (.s mode)) []

/-- Flatten of the bodies of `n` consecutive server pages starting at
request index `req`, in order. -/
def catBodies {α : Type} (srv : Nat → PageResponse α) (req : Nat) : Nat → List α
  | 0 => []
  | n + 1 => bodyItems (srv req).body ++ catBodies srv (req + 1) n

/-- The dictionary `get_page` returns (lines 259-264). -/
structure PageResult (α : Type) where
  data : JsonBody α
  has_next : Bool
  continuable : Option String
  current_size : Option String
deriving DecidableEq

structure GetPageRun (α : Type) where
  sent_params : Params
  result : PageResult α
  requests : Nat
deriving DecidableEq

/-- `get_page` (lines 230-264): writes `mode`, `size`, and — when the
caller-supplied token is truthy — `continuable` into the params dict,
issues one request, and extracts the three `x-meta-*` headers. -/
def get_page {α : Type} (params : Params) (size : Int)
    (continuable : Option String) (resp : PageResponse α) : GetPageRun α :=
  let p1 := setParam params "mode" (.s "CONTINUABLE")
  let p2 := setParam p1 "size" (.i size)
  let p3 := if pyTruthy continuable
    then setParam p2 "continuable" (.s (continuable.getD ""))
    else p2
  { sent_params := p3
    result :=
      { data := resp.body
        has_next := parseHasNext resp.has_next_header
        continuable := resp.continuable_header
        current_size := resp.current_size_header }
    requests := 1 }

/-! ## Theorems: request executor (claims C1, C2) -/

/-- Helper: a persistently failing transport from attempt `rc` on, with
`rc + k = max_retries`, makes `k + 1` further attempts, sleeps
`2^rc, …, 2^(max_retries - 1)`, and surfaces the transport error. -/
lemma runRequest_transport_tail (attempt : Nat → AttemptResult) (mr : Nat) :
    ∀ k rc, rc + k = mr → (∀ i, rc ≤ i → i ≤ mr → attempt i = .transportError) →
      runRequest attempt mr rc =
        { outcome := .transientNetworkError, attempts := k + 1,
          sleeps := (List.range' rc k).map fun i => 2 ^ i, invalidations := 0 } := by
  intro k
  induction k with
  | zero =>
    intro rc hrc hall
    rw [runRequest.eq_def, hall rc (le_refl rc) (by omega)]
    simp
    omega
  | succ k ih =>
    intro rc hrc hall
    rw [runRequest.eq_def, hall rc (le_refl rc) (by omega)]
    have hlt : rc < mr := by omega
    have hrec := ih (rc + 1) (by omega) (fun i h1 h2 => hall i (by omega) h2)
    simp [hlt, hrec]
    show 2 ^ rc :: (List.range' (rc + 1) k).map (fun i => 2 ^ i)
        = (List.range' rc (k + 1)).map fun i => 2 ^ i
    rfl

/-- C1 (amended): a 401 invalidates the cached token and retries the whole
call exactly once more only when it arrives on the very first attempt
(`retry_count = 0`); a 401 on any later attempt — a second consecutive 401,
or a first 401 arriving after a transport retry — is surfaced as
`HTTPStatusError` with no further attempt and no invalidation.  In
particular two consecutive 401s give exactly 2 attempts and 1 invalidation. -/
theorem c1_401_reauth_only_on_first_attempt (attempt : Nat → AttemptResult)
    (mr : Nat) :
    (attempt 0 = .status 401 →
      runRequest attempt mr 0 =
        { runRequest attempt mr 1 with
          attempts := (runRequest attempt mr 1).attempts + 1,
          invalidations := (runRequest attempt mr 1).invalidations + 1 }) ∧
    (∀ rc, 1 ≤ rc → attempt rc = .status 401 →
      runRequest attempt mr rc =
        { outcome := .httpStatusError 401, attempts := 1, sleeps := [],
          invalidations := 0 }) ∧
    (attempt 0 = .status 401 → attempt 1 = .status 401 →
      runRequest attempt mr 0 =
        { outcome := .httpStatusError 401, attempts := 2, sleeps := [],
          invalidations := 1 }) := by
  have hfirst : attempt 0 = .status 401 →
      runRequest attempt mr 0 =
        { runRequest attempt mr 1 with
          attempts := (runRequest attempt mr 1).attempts + 1,
          invalidations := (runRequest attempt mr 1).invalidations + 1 } := by
    intro h0
    rw [runRequest.eq_def, h0]
    simp
  have hlater : ∀ rc, 1 ≤ rc → attempt rc = .status 401 →
      runRequest attempt mr rc =
        { outcome := .httpStatusError 401, attempts := 1, sleeps := [],
          invalidations := 0 } := by
    intro rc hrc h
    rw [runRequest.eq_def, h]
    simp
    omega
  refine ⟨hfirst, hlater, fun h0 h1 => ?_⟩
  rw [hfirst h0, hlater 1 (le_refl 1) h1]

/-- The fixed trace refuting claim C1 as stated: attempt 0 is a transport
failure (retried with backoff), attempt 1 returns the first 401 of the
logical call — yet the executor performs no invalidate-and-retry
(`invalidations = 0`) and surfaces `HTTPStatusError` after 2 attempts,
because the source guards the re-auth with the shared counter
`retry_count < 1`. -/
theorem c1_counterexample_first401_after_transport_retry :
    (fun n => if n = 0 then AttemptResult.transportError else .status 401) 0
        = .transportError ∧
    (fun n => if n = 0 then AttemptResult.transportError else .status 401) 1
        = .status 401 ∧
    runRequest (fun n => if n = 0 then .transportError else .status 401) 3 0 =
      { outcome := .httpStatusError 401, attempts := 2, sleeps := [1],
        invalidations := 0 } := by
  refine ⟨rfl, rfl, ?_⟩
  simp [runRequest]

/-- Witness for the amended C1: two consecutive 401s yield exactly 2
attempts, 1 token invalidation, and an `HTTPStatusError`. -/
theorem c1_witness_double401 :
    runRequest (fun _ => .status 401) 3 0 =
      { outcome := .httpStatusError 401, attempts := 2, sleeps := [],
        invalidations := 1 } :=
  (c1_401_reauth_only_on_first_attempt (fun _ => .status 401) 3).2.2 rfl rfl

/-- C2: each transport-level failure at attempt index `rc < max_retries`
sleeps `2^rc` seconds and retries the whole call; a transport failure with
`max_retries` retries already made is surfaced; hence a persistently
failing transport yields exactly `max_retries + 1` attempts with backoff
delays `2^0, 2^1, …, 2^(max_retries-1)` before surfacing
`TransientNetworkError`. -/
theorem c2_transport_backoff_and_exhaustion (attempt : Nat → AttemptResult)
    (mr : Nat) :
    (∀ rc, rc < mr → attempt rc = .transportError →
      runRequest attempt mr rc =
        { runRequest attempt mr (rc + 1) with
          attempts := (runRequest attempt mr (rc + 1)).attempts + 1,
          sleeps := 2 ^ rc :: (runRequest attempt mr (rc + 1)).sleeps }) ∧
    (∀ rc, mr ≤ rc → attempt rc = .transportError →
      runRequest attempt mr rc =
        { outcome := .transientNetworkError, attempts := 1, sleeps := [],
          invalidations := 0 }) ∧
    ((∀ i, i ≤ mr → attempt i = .transportError) →
      runRequest attempt mr 0 =
        { outcome := .transientNetworkError, attempts := mr + 1,
          sleeps := (List.range mr).map fun i => 2 ^ i, invalidations := 0 }) := by
  refine ⟨?_, ?_, ?_⟩
  · intro rc hlt h
    rw [runRequest.eq_def, h]
    simp [hlt]
  · intro rc hge h
    rw [runRequest.eq_def, h]
    simp
    omega
  · intro hall
    have := runRequest_transport_tail attempt mr mr 0 (by omega)
      (fun i h1 h2 => hall i h2)
    rw [this, List.range_eq_range']

/-- Witness for C2 with `max_retries = 3` (the source default): a
persistently failing transport yields exactly 4 attempts and backoff
sleeps of 1, 2 and 4 seconds before `TransientNetworkError`. -/
theorem c2_witness_four_attempts :
    runRequest (fun _ => .transportError) 3 0 =
      { outcome := .transientNetworkError, attempts := 4, sleeps := [1, 2, 4],
        invalidations := 0 } := by
  have h := (c2_transport_backoff_and_exhaustion (fun _ => .transportError) 3).2.2
    (fun i _ => rfl)
  exact h.trans (by decide)

/-! ## Dictionary lemmas -/

lemma getParam_setParam_self (p : Params) (k : String) (v : PValue) :
    getParam (setParam p k v) k = some v := by
  induction p with
  | nil => simp [setParam, getParam]
  | cons hd tl ih =>
    obtain ⟨k0, v0⟩ := hd
    by_cases h : k0 = k <;> simp [setParam, getParam, h, ih]

lemma getParam_setParam_ne (p : Params) (k k2 : String) (v : PValue)
    (h : k2 ≠ k) : getParam (setParam p k v) k2 = getParam p k2 := by
  induction p with
  | nil => simp [setParam, getParam, Ne.symm h]
  | cons hd tl ih =>
    obtain ⟨k0, v0⟩ := hd
    by_cases hk : k0 = k
    · subst hk
      simp [setParam, getParam, h, Ne.symm h]
    · simp [setParam, getParam, hk, ih]

lemma setParam_setParam_same (p : Params) (k : String) (v w : PValue) :
    setParam (setParam p k v) k w = setParam p k w := by
  induction p with
  | nil => simp [setParam]
  | cons hd tl ih =>
    obtain ⟨k0, v0⟩ := hd
    by_cases h : k0 = k <;> simp [setParam, h, ih]

/-! ## Pagination loop lemmas -/

/-- If the first `n` responses continue the loop and response `n` stops it,
and `n` is below the remaining page budget, the loop issues exactly `n + 1`
requests, accumulates the `n + 1` page bodies in order, and the final dict
holds the last continuation token written (none if the first page already
stopped). -/
lemma getPaginatedGo_stops {α : Type} (srv : Nat → PageResponse α) :
    ∀ (n fuel req : Nat) (params : Params) (acc : List α), n < fuel →
      (∀ i, i < n → continues (srv (req + i)) = true) →
      continues (srv (req + n)) = false →
      (getPaginatedGo srv fuel req params acc).results
          = acc ++ catBodies srv req (n + 1) ∧
      (getPaginatedGo srv fuel req params acc).requests = req + n + 1 ∧
      (getPaginatedGo srv fuel req params acc).final_params
          = (if n = 0 then params
             else setParam params "continuable"
               (.s ((srv (req + n - 1)).continuable_header.getD ""))) := by
  intro n
  induction n with
  | zero =>
    intro fuel req params acc hfuel hcont hstop
    obtain ⟨f, rfl⟩ : ∃ f, fuel = f + 1 := ⟨fuel - 1, by omega⟩
    rw [Nat.add_zero] at hstop
    have hs : (!parseHasNext (srv req).has_next_header
        || !pyTruthy (srv req).continuable_header) = true := by
      simp only [continues] at hstop
      rw [← Bool.not_and, hstop]
      rfl
    simp [getPaginatedGo, hs, catBodies]
  | succ n ih =>
    intro fuel req params acc hfuel hcont hstop
    obtain ⟨f, rfl⟩ : ∃ f, fuel = f + 1 := ⟨fuel - 1, by omega⟩
    have hc0 : continues (srv (req + 0)) = true := hcont 0 (by omega)
    have hs : (!parseHasNext (srv req).has_next_header
        || !pyTruthy (srv req).continuable_header) = false := by
      simp [continues] at hc0
      simp [hc0.1, hc0.2]
    have ih2 := ih f (req + 1)
      (setParam params "continuable" (.s ((srv req).continuable_header.getD "")))
      (acc ++ bodyItems (srv req).body)
      (by omega)
      (fun i hi => by
        have := hcont (i + 1) (by omega)
        have he : req + (i + 1) = req + 1 + i := by omega
        rwa [he] at this)
      (by
        have he : req + (n + 1) = req + 1 + n := by omega
        rwa [he] at hstop)
    refine ⟨?_, ?_, ?_⟩
    · rw [show getPaginatedGo srv (f + 1) req params acc
          = getPaginatedGo srv f (req + 1)
              (setParam params "continuable" (.s ((srv req).continuable_header.getD "")))
              (acc ++ bodyItems (srv req).body) by simp [getPaginatedGo, hs]]
      rw [ih2.1]
      simp [catBodies]
    · rw [show getPaginatedGo srv (f + 1) req params acc
          = getPaginatedGo srv f (req + 1)
              (setParam params "continuable" (.s ((srv req).continuable_header.getD "")))
              (acc ++ bodyItems (srv req).body) by simp [getPaginatedGo, hs]]
      rw [ih2.2.1]
      omega
    · rw [show getPaginatedGo srv (f + 1) req params acc
          = getPaginatedGo srv f (req + 1)
              (setParam params "continuable" (.s ((srv req).continuable_header.getD "")))
              (acc ++ bodyItems (srv req).body) by simp [getPaginatedGo, hs]]
      rw [ih2.2.2]
      cases n with
      | zero => simp
      | succ m =>
        have he : req + 1 + (m + 1) - 1 = req + (m + 1 + 1) - 1 := by omega
        simp [setParam_setParam_same, he]

/-- The loop never issues more requests than its remaining page budget. -/
lemma getPaginatedGo_requests_le {α : Type} (srv : Nat → PageResponse α) :
    ∀ (fuel req : Nat) (params : Params) (acc : List α),
      (getPaginatedGo srv fuel req params acc).requests ≤ req + fuel := by
  intro fuel
  induction fuel with
  | zero => intro req params acc; simp [getPaginatedGo]
  | succ f ih =>
    intro req params acc
    by_cases hs : (!parseHasNext (srv req).has_next_header
        || !pyTruthy (srv req).continuable_header) = true
    · simp [getPaginatedGo, hs]
    · rw [Bool.not_eq_true] at hs
      have := ih (req + 1)
        (setParam params "continuable" (.s ((srv req).continuable_header.getD "")))
        (acc ++ bodyItems (srv req).body)
      simp [getPaginatedGo, hs]
      omega

/-- Against a server that always reports another page, the loop runs its
budget to exhaustion: one request per budgeted page, all bodies
accumulated. -/
lemma getPaginatedGo_all_continue {α : Type} (srv : Nat → PageResponse α)
    (h : ∀ i, continues (srv i) = true) :
    ∀ (fuel req : Nat) (params : Params) (acc : List α),
      (getPaginatedGo srv fuel req params acc).results = acc ++ catBodies srv req fuel ∧
      (getPaginatedGo srv fuel req params acc).requests = req + fuel := by
  intro fuel
  induction fuel with
  | zero => intro req params acc; simp [getPaginatedGo, catBodies]
  | succ f ih =>
    intro req params acc
    have hc := h req
    have hs : (!parseHasNext (srv req).has_next_header
        || !pyTruthy (srv req).continuable_header) = false := by
      simp [continues] at hc
      simp [hc.1, hc.2]
    have ih2 := ih (req + 1)
      (setParam params "continuable" (.s ((srv req).continuable_header.getD "")))
      (acc ++ bodyItems (srv req).body)
    constructor
    · rw [show getPaginatedGo srv (f + 1) req params acc
          = getPaginatedGo srv f (req + 1)
              (setParam params "continuable" (.s ((srv req).continuable_header.getD "")))
              (acc ++ bodyItems (srv req).body) by simp [getPaginatedGo, hs]]
      rw [ih2.1]
      simp [catBodies]
    · rw [show getPaginatedGo srv (f + 1) req params acc
          = getPaginatedGo srv f (req + 1)
              (setParam params "continuable" (.s ((srv req).continuable_header.getD "")))
              (acc ++ bodyItems (srv req).body) by simp [getPaginatedGo, hs]]
      rw [ih2.2]
      omega

/-- The loop writes no key other than `"continuable"` into the dict. -/
lemma getPaginatedGo_preserves {α : Type} (srv : Nat → PageResponse α) :
    ∀ (fuel req : Nat) (params : Params) (acc : List α) (k : String),
      k ≠ "continuable" →
      getParam (getPaginatedGo srv fuel req params acc).final_params k
        = getParam params k := by
  intro fuel
  induction fuel with
  | zero => intro req params acc k hk; simp [getPaginatedGo]
  | succ f ih =>
    intro req params acc k hk
    by_cases hs : (!parseHasNext (srv req).has_next_header
        || !pyTruthy (srv req).continuable_header) = true
    · simp [getPaginatedGo, hs]
    · rw [Bool.not_eq_true] at hs
      rw [show getPaginatedGo srv (f + 1) req params acc
          = getPaginatedGo srv f (req + 1)
              (setParam params "continuable" (.s ((srv req).continuable_header.getD "")))
              (acc ++ bodyItems (srv req).body) by simp [getPaginatedGo, hs]]
      rw [ih (req + 1) _ _ k hk, getParam_setParam_ne _ _ _ _ hk]

/-! ## Theorems: pagination (claims C4, C8) -/

/-- C4 (amended): accumulate-all pagination issues one GET per page,
flattens list bodies and appends object bodies into one ordered result,
and stops after page `n` exactly when that page's `x-meta-has-next` header
does not case-insensitively read `"true"` (in particular when absent), or
its `x-meta-continuable` header is absent *or empty*, or the page ceiling
is hit; over a prefix of continuing pages ending in a stopping page it
returns the pages' bodies concatenated in order after exactly `n + 1`
requests. -/
theorem c4_accumulate_all_pagination {α : Type} (srv : Nat → PageResponse α)
    (params : Params) (mode : String) (max_pages n : Nat)
    (hn : n < max_pages)
    (hcont : ∀ i, i < n → continues (srv i) = true)
    (hstop : continues (srv n) = false) :
    (get_paginated srv params mode max_pages).results = catBodies srv 0 (n + 1) ∧
    (get_paginated srv params mode max_pages).requests = n + 1 ∧
    (∀ r : PageResponse α, continues r = true ↔
      (parseHasNext r.has_next_header = true ∧ r.continuable_header ≠ none ∧
        r.continuable_header ≠ some "")) := by
  have h := getPaginatedGo_stops srv n max_pages 0 (setParam params "mode" (.s mode)) []
    hn (fun i hi => by simpa using hcont i hi) (by simpa using hstop)
  refine ⟨?_, ?_, ?_⟩
  · rw [get_paginated, h.1]
    simp
  · rw [get_paginated, h.2.1]
    omega
  · intro r
    cases hc : r.continuable_header with
    | none => simp [continues, pyTruthy, hc]
    | some s =>
      by_cases hs : s = "" <;> simp [continues, pyTruthy, hc, hs]

/-- The input refuting claim C4 as stated: the first response carries
`x-meta-has-next: true` and a *present* (but empty) `x-meta-continuable`
header, and the ceiling (5) is not hit, yet the loop stops after a single
request, because the source treats an empty continuation token as falsy. -/
theorem c4_counterexample_empty_continuable_header :
    parseHasNext (PageResponse.has_next_header
      ({ body := JsonBody.list [7], has_next_header := some "true",
         continuable_header := some "", current_size_header := none }
        : PageResponse Nat)) = true ∧
    PageResponse.continuable_header
      ({ body := JsonBody.list [7], has_next_header := some "true",
         continuable_header := some "", current_size_header := none }
        : PageResponse Nat) ≠ none ∧
    (1 : Nat) < 5 ∧
    (get_paginated
      (fun _ => ({ body := JsonBody.list [7], has_next_header := some "true",
                   continuable_header := some "", current_size_header := none }
        : PageResponse Nat))
      [] "CONTINUABLE" 5).requests = 1 := by
  decide

/-- The three-page server of the C4 example: 10, 10 and 5 items, only the
first two pages reporting a next page. -/
def srvThreePages : Nat → PageResponse Nat := fun n =>
  if n = 0 then
    { body := .list [0, 1, 2, 3, 4, 5, 6, 7, 8, 9], has_next_header := some "true",
      continuable_header := some "c1", current_size_header := some "10" }
  else if n = 1 then
    { body := .list [10, 11, 12, 13, 14, 15, 16, 17, 18, 19],
      has_next_header := some "true",
      continuable_header := some "c2", current_size_header := some "10" }
  else
    { body := .list [20, 21, 22, 23, 24], has_next_header := some "false",
      continuable_header := none, current_size_header := some "5" }

/-- Witness for C4: over 3 server pages of 10, 10 and 5 items where only
the first two report has-next, `get_paginated` returns the single ordered
25-item list after exactly 3 requests. -/
theorem c4_witness_three_pages_25_items :
    (get_paginated srvThreePages [] "CONTINUABLE" 100).results =
      [0, 1, 2, 3, 4, 5, 6, 7, 8, 9, 10, 11, 12, 13, 14, 15, 16, 17, 18, 19,
        20, 21, 22, 23, 24] ∧
    (get_paginated srvThreePages [] "CONTINUABLE" 100).requests = 3 := by
  have h := c4_accumulate_all_pagination srvThreePages [] "CONTINUABLE" 100 2
    (by decide) (by decide) (by decide)
  exact ⟨h.1.trans (by decide), h.2.1⟩

/-- C8: `get_paginated` always issues at most `max_pages` requests; against
a server that keeps reporting a next page with a continuation token it
stops at exactly the ceiling, returning the pages accumulated so far as an
ordinary result (the embedding is a total function — no error value and no
truncation flag exists in its result type). -/
theorem c8_pagination_page_ceiling {α : Type} (srv : Nat → PageResponse α)
    (params : Params) (mode : String) (max_pages : Nat) :
    (get_paginated srv params mode max_pages).requests ≤ max_pages ∧
    ((∀ i, continues (srv i) = true) →
      (get_paginated srv params mode max_pages).requests = max_pages ∧
      (get_paginated srv params mode max_pages).results = catBodies srv 0 max_pages) := by
  constructor
  · have := getPaginatedGo_requests_le srv max_pages 0
      (setParam params "mode" (.s mode)) []
    simpa [get_paginated] using this
  · intro h
    have := getPaginatedGo_all_continue srv h max_pages 0
      (setParam params "mode" (.s mode)) []
    exact ⟨by simpa [get_paginated] using this.2, by simpa [get_paginated] using this.1⟩

/-- A server that always reports another page. -/
def srvAlwaysNext : Nat → PageResponse Nat := fun n =>
  { body := .list [n], has_next_header := some "true",
    continuable_header := some "c", current_size_header := some "1" }

/-- Witness for C8: with a 3-page ceiling against an ever-continuing
server, exactly 3 requests are made and the 3 accumulated pages are
returned. -/
theorem c8_witness_ceiling_three :
    (get_paginated srvAlwaysNext [] "CONTINUABLE" 3).requests = 3 ∧
    (get_paginated srvAlwaysNext [] "CONTINUABLE" 3).results = [0, 1, 2] := by
  have h := (c8_pagination_page_ceiling srvAlwaysNext [] "CONTINUABLE" 3).2
    (fun i => rfl)
  exact ⟨h.1, h.2.trans (by decide)⟩

/-! ## Rate limiter lemmas -/

/-- Purging removes nothing when every recorded instant is within the
window of `now`. -/
lemma purgeExpired_of_fresh (w now : ℚ) (l : List ℚ)
    (h : ∀ x ∈ l, now - x < w) : purgeExpired w now l = l := by
  induction l with
  | nil => rfl
  | cons t ts ih =>
    have ht := h t (by simp)
    simp [purgeExpired, not_le.mpr ht]

/-- The purged deque is a suffix of the original. -/
lemma purgeExpired_suffix (w now : ℚ) (l : List ℚ) :
    purgeExpired w now l <:+ l := by
  induction l with
  | nil => simp [purgeExpired]
  | cons t ts ih =>
    by_cases h : w ≤ now - t
    · simp only [purgeExpired, if_pos h]
      exact ih.trans (List.suffix_cons t ts)
    · simp [purgeExpired, h]

/-- Purging is idempotent: the admission decision sees an already-purged
deque. -/
lemma purgeExpired_idem (w now : ℚ) (l : List ℚ) :
    purgeExpired w now (purgeExpired w now l) = purgeExpired w now l := by
  induction l with
  | nil => rfl
  | cons t ts ih =>
    by_cases h : w ≤ now - t
    · simp only [purgeExpired, if_pos h]
      exact ih
    · simp [purgeExpired, h]

/-- On a non-decreasing deque, every entry surviving the purge is within
the window of `now`. -/
lemma purgeExpired_fresh_of_sorted (w now : ℚ) (l : List ℚ)
    (h : l.Sorted (· ≤ ·)) :
    ∀ x ∈ purgeExpired w now l, now - x < w := by
  induction l with
  | nil => simp [purgeExpired]
  | cons t ts ih =>
    by_cases hc : w ≤ now - t
    · simp only [purgeExpired, if_pos hc]
      exact ih (List.sorted_cons.mp h).2
    · simp only [purgeExpired, if_neg hc]
      intro x hx
      rcases List.mem_cons.mp hx with rfl | hx2
      · exact not_le.mp hc
      · have hle := (List.sorted_cons.mp h).1 x hx2
        have := not_le.mp hc
        linarith


/-- `acquire` when the purged deque is below capacity: record `now`, no
sleep. -/
lemma acquire_below_capacity (maxR : Nat) (w now : ℚ) (l : List ℚ)
    (h : (purgeExpired w now l).length < maxR) :
    RateLimiter.acquire ⟨maxR, w, l⟩ now
      = (⟨maxR, w, purgeExpired w now l ++ [now]⟩, 0) := by
  simp only [RateLimiter.acquire, not_le.mpr h, if_false]

/-- `acquire` at capacity with a positive wait: sleep
`w - (now - oldest)`, drop the oldest entry, record the wake-up instant. -/
lemma acquire_at_capacity (maxR : Nat) (w now : ℚ) (l : List ℚ)
    (oldest : ℚ) (rest : List ℚ)
    (hp : purgeExpired w now l = oldest :: rest)
    (hcap : maxR ≤ rest.length + 1)
    (hwait : 0 < w - (now - oldest)) :
    RateLimiter.acquire ⟨maxR, w, l⟩ now
      = (⟨maxR, w, rest ++ [now + (w - (now - oldest))]⟩, w - (now - oldest)) := by
  simp only [RateLimiter.acquire, hp, List.length_cons, if_pos hcap, if_pos hwait]

/-! ## Theorems: rate limiter (claims C3, C6) -/

/-- Sortedness survives appending a late element. -/
lemma sorted_append_singleton (l : List ℚ) (a : ℚ)
    (hl : l.Sorted (· ≤ ·)) (ha : ∀ x ∈ l, x ≤ a) :
    (l ++ [a]).Sorted (· ≤ ·) := by
  refine List.pairwise_append.mpr ⟨hl, List.pairwise_singleton _ _, ?_⟩
  intro x hx y hy
  rcases List.mem_singleton.mp hy with rfl
  exact ha x hx

/-- C6: the rate limiter's state invariants are preserved by `acquire`
(with a positive capacity, as configured): the timestamp sequence stays
non-decreasing, its length never exceeds `max_requests`, every recorded
instant is at most the clock value when it was recorded, the admission
decision acts on the purged deque (purging beforehand changes nothing),
and the purge leaves only entries within the window of `now`. -/
theorem c6_rate_window_invariants (rl : RateLimiter) (now : ℚ)
    (hmax : 0 < rl.max_requests)
    (hsorted : rl.timestamps.Sorted (· ≤ ·))
    (hlen : rl.timestamps.length ≤ rl.max_requests)
    (hpast : ∀ x ∈ rl.timestamps, x ≤ now) :
    (rl.acquire now).1.timestamps.Sorted (· ≤ ·) ∧
    (rl.acquire now).1.timestamps.length ≤ (rl.acquire now).1.max_requests ∧
    (∀ x ∈ (rl.acquire now).1.timestamps, x ≤ now + (rl.acquire now).2) ∧
    (∀ x ∈ purgeExpired rl.window_seconds now rl.timestamps,
      now - x < rl.window_seconds) ∧
    RateLimiter.acquire
      { rl with timestamps := purgeExpired rl.window_seconds now rl.timestamps }
      now = rl.acquire now := by
  obtain ⟨maxR, w, l⟩ := rl
  simp only at hmax hsorted hlen hpast ⊢
  have hfresh : ∀ x ∈ purgeExpired w now l, now - x < w :=
    purgeExpired_fresh_of_sorted w now l hsorted
  have hsub : ∀ x ∈ purgeExpired w now l, x ∈ l := fun x hx =>
    (purgeExpired_suffix w now l).sublist.subset hx
  have hsorted2 : (purgeExpired w now l).Sorted (· ≤ ·) :=
    hsorted.sublist (purgeExpired_suffix w now l).sublist
  have hlen2 : (purgeExpired w now l).length ≤ l.length :=
    (purgeExpired_suffix w now l).sublist.length_le
  have hidem : RateLimiter.acquire ⟨maxR, w, purgeExpired w now l⟩ now
      = RateLimiter.acquire ⟨maxR, w, l⟩ now := by
    simp only [RateLimiter.acquire, purgeExpired_idem]
  refine ⟨?_, ?_, ?_, hfresh, hidem⟩ <;>
    by_cases hcap : maxR ≤ (purgeExpired w now l).length
  case pos =>
    rcases hp : purgeExpired w now l with _ | ⟨oldest, rest⟩
    · rw [hp] at hcap; simp at hcap; omega
    · have holdfresh : now - oldest < w := hfresh oldest (by rw [hp]; simp)
      have hwait : 0 < w - (now - oldest) := by linarith
      rw [acquire_at_capacity maxR w now l oldest rest hp
        (by rw [hp] at hcap; simpa using hcap) hwait]
      refine sorted_append_singleton _ _ ?_ ?_
      · have := hsorted2
        rw [hp] at this
        exact (List.sorted_cons.mp this).2
      · intro x hx
        have := hpast x (hsub x (by rw [hp]; simp [hx]))
        linarith
  case neg =>
    rw [acquire_below_capacity maxR w now l (by omega)]
    exact sorted_append_singleton _ _ hsorted2 fun x hx => hpast x (hsub x hx)
  case pos =>
    rcases hp : purgeExpired w now l with _ | ⟨oldest, rest⟩
    · rw [hp] at hcap; simp at hcap; omega
    · have holdfresh : now - oldest < w := hfresh oldest (by rw [hp]; simp)
      have hwait : 0 < w - (now - oldest) := by linarith
      rw [acquire_at_capacity maxR w now l oldest rest hp
        (by rw [hp] at hcap; simpa using hcap) hwait]
      have : (oldest :: rest).length ≤ l.length := by rw [← hp]; exact hlen2
      simp at this ⊢
      omega
  case neg =>
    rw [acquire_below_capacity maxR w now l (by omega)]
    simp
    omega
  case pos =>
    rcases hp : purgeExpired w now l with _ | ⟨oldest, rest⟩
    · rw [hp] at hcap; simp at hcap; omega
    · have holdfresh : now - oldest < w := hfresh oldest (by rw [hp]; simp)
      have hwait : 0 < w - (now - oldest) := by linarith
      rw [acquire_at_capacity maxR w now l oldest rest hp
        (by rw [hp] at hcap; simpa using hcap) hwait]
      intro x hx
      rcases List.mem_append.mp hx with hx2 | hx2
      · have := hpast x (hsub x (by rw [hp]; simp [hx2]))
        dsimp only
        linarith
      · rcases List.mem_singleton.mp hx2 with rfl
        dsimp only
        linarith
  case neg =>
    rw [acquire_below_capacity maxR w now l (by omega)]
    intro x hx
    rcases List.mem_append.mp hx with hx2 | hx2
    · have := hpast x (hsub x hx2)
      dsimp only
      linarith
    · rcases List.mem_singleton.mp hx2 with rfl
      dsimp only
      linarith

/-- Witness for C6 at a concrete state: one stale entry, capacity 10. -/
theorem c6_witness_concrete :
    ((RateLimiter.mk 10 1 [0]).acquire 2).1.timestamps.Sorted (· ≤ ·) ∧
    ((RateLimiter.mk 10 1 [0]).acquire 2).1.timestamps.length
        ≤ ((RateLimiter.mk 10 1 [0]).acquire 2).1.max_requests ∧
    (∀ x ∈ ((RateLimiter.mk 10 1 [0]).acquire 2).1.timestamps,
      x ≤ 2 + ((RateLimiter.mk 10 1 [0]).acquire 2).2) ∧
    (∀ x ∈ purgeExpired (RateLimiter.mk 10 1 [0]).window_seconds 2
        (RateLimiter.mk 10 1 [0]).timestamps,
      (2 : ℚ) - x < (RateLimiter.mk 10 1 [0]).window_seconds) ∧
    RateLimiter.acquire
      { RateLimiter.mk 10 1 [0] with
        timestamps := purgeExpired (RateLimiter.mk 10 1 [0]).window_seconds 2
          (RateLimiter.mk 10 1 [0]).timestamps } 2
      = (RateLimiter.mk 10 1 [0]).acquire 2 :=
  c6_rate_window_invariants ⟨10, 1, [0]⟩ 2 (by decide) (by decide) (by decide)
    (by decide)

/-- Starting from a deque `pre` whose union with the incoming instants fits
in one window and in the capacity, every `acquire` is admitted immediately
(wait 0) and simply appends its instant. -/
lemma runAcquires_no_wait (maxR : Nat) (w : ℚ) :
    ∀ (ts pre : List ℚ),
      (pre ++ ts).length ≤ maxR →
      (∀ x ∈ pre ++ ts, ∀ y ∈ pre ++ ts, y - x < w) →
      runAcquires ⟨maxR, w, pre⟩ ts
        = (⟨maxR, w, pre ++ ts⟩, List.replicate ts.length 0) := by
  intro ts
  induction ts with
  | nil => intro pre hlen hspan; simp [runAcquires]
  | cons t ts2 ih =>
    intro pre hlen hspan
    have hfreshpre : ∀ x ∈ pre, t - x < w := fun x hx =>
      hspan x (by simp [hx]) t (by simp)
    have hplen : (purgeExpired w t pre).length < maxR := by
      rw [purgeExpired_of_fresh w t pre hfreshpre]
      simp at hlen
      omega
    have hstep : RateLimiter.acquire ⟨maxR, w, pre⟩ t
        = (⟨maxR, w, pre ++ [t]⟩, 0) := by
      rw [acquire_below_capacity maxR w t pre hplen,
        purgeExpired_of_fresh w t pre hfreshpre]
    have hmem : ∀ x ∈ (pre ++ [t]) ++ ts2, x ∈ pre ++ t :: ts2 := by
      intro x hx
      simp at hx ⊢
      tauto
    have ih2 := ih (pre ++ [t])
      (by simpa using hlen)
      (fun x hx y hy => hspan x (hmem x hx) y (hmem y hy))
    simp only [runAcquires, hstep, ih2]
    simp [List.replicate_succ]

/-- C3: starting empty, any sequence of at most `max_requests` acquires
whose instants all lie within one window is admitted with zero wait, each
instant recorded; with the window then full, the next acquire inside the
window of the oldest recorded instant sleeps exactly
`window_seconds - (now - oldest)` — that is, until one window after the
oldest request — then drops the oldest entry and records the wake-up
instant. -/
theorem c3_sliding_window_admission (maxR : Nat) (w : ℚ) (ts : List ℚ)
    (hsorted : ts.Sorted (· ≤ ·))
    (hspan : ∀ x ∈ ts, ∀ y ∈ ts, y - x < w)
    (hlen : ts.length ≤ maxR) :
    runAcquires ⟨maxR, w, []⟩ ts = (⟨maxR, w, ts⟩, List.replicate ts.length 0) ∧
    (∀ t t0 rest, ts = t0 :: rest → ts.length = maxR →
      (∀ x ∈ ts, x ≤ t) → t - t0 < w →
      RateLimiter.acquire ⟨maxR, w, ts⟩ t
        = (⟨maxR, w, rest ++ [t0 + w]⟩, w - (t - t0))) := by
  constructor
  · simpa using runAcquires_no_wait maxR w ts [] (by simpa using hlen)
      (by simpa using hspan)
  · rintro t t0 rest rfl hfull hmono hwin
    have hfresh : ∀ x ∈ t0 :: rest, t - x < w := by
      intro x hx
      rcases List.mem_cons.mp hx with rfl | hx2
      · exact hwin
      · have ht0x : t0 ≤ x := (List.sorted_cons.mp hsorted).1 x hx2
        linarith
    have hp : purgeExpired w t (t0 :: rest) = t0 :: rest :=
      purgeExpired_of_fresh w t _ hfresh
    have hwait : 0 < w - (t - t0) := by linarith
    rw [acquire_at_capacity maxR w t (t0 :: rest) t0 rest hp
      (by simp at hfull; omega) hwait]
    have harith : t + (w - (t - t0)) = t0 + w := by ring
    rw [harith]

/-- Witness for C3 with capacity 2 and a 2-second window: two acquires at
instants 0 and 1 are admitted immediately; a third at instant 1 sleeps
exactly `2 - (1 - 0) = 1` second, drops the oldest instant and records the
wake-up instant `0 + 2`. -/
theorem c3_witness_concrete :
    runAcquires ⟨2, 2, []⟩ [0, 1] = (⟨2, 2, [0, 1]⟩, [0, 0]) ∧
    RateLimiter.acquire ⟨2, 2, [0, 1]⟩ 1 = (⟨2, 2, [1, 0 + 2]⟩, 2 - (1 - 0)) := by
  have h := c3_sliding_window_admission 2 2 [0, 1] (by decide)
    (by norm_num [List.forall_mem_cons]) (by decide)
  exact ⟨h.1.trans (by decide), h.2 1 0 [1] rfl (by decide) (by decide) (by norm_num)⟩

/-! ## Theorems: token lifetime and cache (claims C5, C7) -/

/-- C5: the token's absolute expiry instant is issuance time plus the
server-advertised lifetime minus the 60-second margin; the token is usable
(not expired) exactly when the current time is strictly before that
instant; with `expires_in = 3600` the token counts as expired from
`issue + 3540` on — 60 seconds before the advertised end of life. -/
theorem c5_token_expiry_margin (a tt : String) (ei issue now : ℚ) :
    (mkOAuth2Token a ei tt issue).expires_at = issue + ei - 60 ∧
    ((mkOAuth2Token a ei tt issue).is_expired now = false ↔
      now < issue + ei - 60) ∧
    ((mkOAuth2Token a 3600 tt issue).is_expired now = true ↔
      issue + 3540 ≤ now) := by
  refine ⟨rfl, ?_, ?_⟩
  · simp [mkOAuth2Token, OAuth2Token.is_expired]
    constructor <;> intro h <;> linarith
  · simp [mkOAuth2Token, OAuth2Token.is_expired]
    constructor <;> intro h <;> linarith

/-- C7: `_get_token` returns the cached token with no fetch when it is
present and usable; when the cache is empty or the cached token has
expired it performs exactly one fetch and caches the fetched token before
returning it; and the fetch request is a POST to the token endpoint with
`grant_type=client_credentials` in the query string and the credential
pair as HTTP Basic authentication. -/
theorem c7_token_acquire (cached : Option OAuth2Token) (resp : TokenResponse)
    (now : ℚ) (s : Settings) :
    (∀ tok, cached = some tok → tok.is_expired now = false →
      getTokenStep cached resp now = (tok, some tok, 0)) ∧
    ((cached = none ∨ ∃ tok, cached = some tok ∧ tok.is_expired now = true) →
      getTokenStep cached resp now
        = (fetchToken resp now, some (fetchToken resp now), 1)) ∧
    fetchTokenRequest s
      = { method := "POST",
          url := s.oauth2_url ++ "?grant_type=client_credentials",
          basic_auth := (s.client_id, s.client_secret) } := by
  refine ⟨?_, ?_, rfl⟩
  · rintro tok rfl hok
    simp [getTokenStep, hok]
  · rintro (rfl | ⟨tok, rfl, hexp⟩)
    · rfl
    · simp [getTokenStep, hexp]

/-- Witness for C7: a cached token expiring at instant 100, queried at
instant 0, is returned as-is with zero fetches. -/
theorem c7_witness_cached_token :
    getTokenStep (some ⟨"tok", "Bearer", 100⟩) ⟨"fresh", none, none⟩ 0
      = (⟨"tok", "Bearer", 100⟩, some ⟨"tok", "Bearer", 100⟩, 0) :=
  (c7_token_acquire (some ⟨"tok", "Bearer", 100⟩) ⟨"fresh", none, none⟩ 0
    ⟨"https://h/oauth/token", "id", "secret", 3⟩).1 _ rfl (by decide)

/-! ## Theorems: single-page mode and params mutation (claims C9, C10) -/

/-- The keys `get_page` writes into the caller's dict. -/
lemma get_page_sent_params {α : Type} (params : Params) (size : Int)
    (cont : Option String) (resp : PageResponse α) :
    getParam (get_page params size cont resp).sent_params "mode"
      = some (.s "CONTINUABLE") ∧
    getParam (get_page params size cont resp).sent_params "size"
      = some (.i size) ∧
    (∀ s2, cont = some s2 → s2 ≠ "" →
      getParam (get_page params size cont resp).sent_params "continuable"
        = some (.s s2)) ∧
    (∀ k, k ≠ "mode" → k ≠ "size" → k ≠ "continuable" →
      getParam (get_page params size cont resp).sent_params k
        = getParam params k) := by
  refine ⟨?_, ?_, ?_, ?_⟩
  · by_cases hc : pyTruthy cont = true <;>
      simp [get_page, hc, getParam_setParam_ne, getParam_setParam_self]
  · by_cases hc : pyTruthy cont = true <;>
      simp [get_page, hc, getParam_setParam_ne, getParam_setParam_self]
  · rintro s2 rfl hs2
    have hc : pyTruthy (some s2) = true := by simp [pyTruthy, hs2]
    simp [get_page, hc, getParam_setParam_self]
  · intro k hk1 hk2 hk3
    by_cases hc : pyTruthy cont = true <;>
      simp [get_page, hc, getParam_setParam_ne, hk1, hk2, hk3]

/-- C9: `get_page` issues exactly one request, sending the explicit page
size and — when the caller supplies a nonempty continuation token — that
token unchanged, and returns the raw body together with `has_next`,
`continuable` and `current_size` taken from the `x-meta-has-next`,
`x-meta-continuable` and `x-meta-current-size` response headers. -/
theorem c9_single_page_mode {α : Type} (params : Params) (size : Int)
    (cont : Option String) (resp : PageResponse α) :
    (get_page params size cont resp).requests = 1 ∧
    getParam (get_page params size cont resp).sent_params "mode"
      = some (.s "CONTINUABLE") ∧
    getParam (get_page params size cont resp).sent_params "size"
      = some (.i size) ∧
    (∀ s2, cont = some s2 → s2 ≠ "" →
      getParam (get_page params size cont resp).sent_params "continuable"
        = some (.s s2)) ∧
    (get_page params size cont resp).result.data = resp.body ∧
    (get_page params size cont resp).result.has_next
      = parseHasNext resp.has_next_header ∧
    (get_page params size cont resp).result.continuable
      = resp.continuable_header ∧
    (get_page params size cont resp).result.current_size
      = resp.current_size_header := by
  have h := get_page_sent_params params size cont resp
  exact ⟨rfl, h.1, h.2.1, h.2.2.1, rfl, rfl, rfl, rfl⟩

/-- The fixed response used by the single-page witnesses. -/
def pageRespW : PageResponse Nat :=
  { body := .obj 5, has_next_header := some "TRUE",
    continuable_header := some "next-token", current_size_header := some "1" }

/-- Witness for C9: one request; the supplied token `"abc"` is sent
unchanged; the returned fields mirror the response headers (here a
case-insensitive `has-next` of `"TRUE"` parses to `true`). -/
theorem c9_witness_concrete :
    (get_page [("q", PValue.s "x")] 7 (some "abc") pageRespW).requests = 1 ∧
    getParam (get_page [("q", PValue.s "x")] 7 (some "abc") pageRespW).sent_params
      "continuable" = some (.s "abc") ∧
    getParam (get_page [("q", PValue.s "x")] 7 (some "abc") pageRespW).sent_params
      "size" = some (.i 7) ∧
    (get_page [("q", PValue.s "x")] 7 (some "abc") pageRespW).result.has_next
      = parseHasNext pageRespW.has_next_header := by
  have h := c9_single_page_mode [("q", PValue.s "x")] 7 (some "abc") pageRespW
  exact ⟨h.1, h.2.2.2.1 "abc" rfl (by decide), h.2.2.1, h.2.2.2.2.2.1⟩

/-- C10: both pagination entry points write their control keys into the
caller's params dict (mutated in place in the source; the embedding
returns the final dict contents): `get_paginated` writes `"mode"` and
overwrites `"continuable"` with each continuing page's server token (so
after the call the dict holds the last such token), and `get_page` writes
`"mode"`, `"size"` and — for a supplied nonempty token — `"continuable"`;
all other keys are untouched. -/
theorem c10_params_mutation_visible {α : Type} (params : Params) (size : Int)
    (cont : Option String) (resp : PageResponse α)
    (srv : Nat → PageResponse α) (mode : String) (max_pages n : Nat)
    (hn : n < max_pages)
    (hcont : ∀ i, i < n → continues (srv i) = true)
    (hstop : continues (srv n) = false) :
    getParam (get_paginated srv params mode max_pages).final_params "mode"
      = some (.s mode) ∧
    (∀ k, k ≠ "mode" → k ≠ "continuable" →
      getParam (get_paginated srv params mode max_pages).final_params k
        = getParam params k) ∧
    (∀ c, 1 ≤ n → (srv (n - 1)).continuable_header = some c →
      getParam (get_paginated srv params mode max_pages).final_params
        "continuable" = some (.s c)) ∧
    getParam (get_page params size cont resp).sent_params "mode"
      = some (.s "CONTINUABLE") ∧
    getParam (get_page params size cont resp).sent_params "size"
      = some (.i size) ∧
    (∀ s2, cont = some s2 → s2 ≠ "" →
      getParam (get_page params size cont resp).sent_params "continuable"
        = some (.s s2)) := by
  have hpage := get_page_sent_params params size cont resp
  have hstops := getPaginatedGo_stops srv n max_pages 0
    (setParam params "mode" (.s mode)) [] hn
    (fun i hi => by simpa using hcont i hi) (by simpa using hstop)
  refine ⟨?_, ?_, ?_, hpage.1, hpage.2.1, hpage.2.2.1⟩
  · rw [get_paginated, getPaginatedGo_preserves srv max_pages 0 _ _ "mode"
      (by decide), getParam_setParam_self]
  · intro k hk1 hk2
    rw [get_paginated, getPaginatedGo_preserves srv max_pages 0 _ _ k hk2,
      getParam_setParam_ne _ _ _ _ hk1]
  · intro c hn1 hc
    rw [get_paginated, hstops.2.2, if_neg (by omega)]
    simp only [Nat.zero_add, hc, Option.getD_some]
    exact getParam_setParam_self _ _ _

/-- A two-page server for the C10 witness: the first page continues with
token `"c1"`, the second stops. -/
def srvTwoPagesW : Nat → PageResponse Nat := fun n =>
  if n = 0 then
    { body := .list [1, 2], has_next_header := some "true",
      continuable_header := some "c1", current_size_header := none }
  else
    { body := .list [3], has_next_header := some "false",
      continuable_header := none, current_size_header := none }

/-- Witness for C10: a two-page run (the second page stops) leaves
`mode = "CONTINUABLE"`, leaves the unrelated key `"q"` untouched, and
leaves `continuable` holding the first page's server token `"c1"`; the
single-page call records the explicit size. -/
theorem c10_witness_concrete :
    getParam (get_paginated srvTwoPagesW [("q", PValue.s "x")] "CONTINUABLE" 9).final_params
      "mode" = some (.s "CONTINUABLE") ∧
    getParam (get_paginated srvTwoPagesW [("q", PValue.s "x")] "CONTINUABLE" 9).final_params
      "q" = some (.s "x") ∧
    getParam (get_paginated srvTwoPagesW [("q", PValue.s "x")] "CONTINUABLE" 9).final_params
      "continuable" = some (.s "c1") ∧
    getParam (get_page [("q", PValue.s "x")] 7 (some "abc")
      pageRespW).sent_params "size" = some (.i 7) := by
  have h := c10_params_mutation_visible [("q", PValue.s "x")] 7
    (some "abc") pageRespW srvTwoPagesW "CONTINUABLE" 9 1
    (by decide) (fun i hi => by interval_cases i; rfl) (by decide)
  refine ⟨h.1, ?_, h.2.2.1 "c1" (by decide) rfl, h.2.2.2.2.1⟩
  rw [h.2.1 "q" (by decide) (by decide)]
  decide
